import Mathlib

/-!
Verification development for the Mission Route & Feasibility Engine of the
HTML-Temporary UAV planner (src/mission.js, class MissionPlanner).

JavaScript numbers are modelled as real numbers (ℝ); JS `x || y` on numbers
(which yields `y` when `x` is 0, null or undefined) is modelled by `jsOr`
with missing values coerced to 0 via `Option.getD 0`.  DOM, map-marker and
rendering side effects are not part of the state: the model keeps exactly
the fields of MissionPlanner that the engine reads (waypoints, homePoint,
selectedDrone, the four mission parameters) plus a fresh-id counter that
stands for the `Date.now() + Math.random()` id generator.  The IEEE
Infinity/NaN behaviour of JS division is modelled separately by `JNum`
for the division-by-zero analysis, since ℝ has no such values.
-/

/-- Two-argument arctangent as in `Math.atan2(y, x)` (standard case split). -/
noncomputable def atan2 (y x : ℝ) : ℝ :=
  if 0 < x then Real.arctan (y / x)
  else if x < 0 ∧ 0 ≤ y then Real.arctan (y / x) + Real.pi
  else if x < 0 then Real.arctan (y / x) - Real.pi
  else if 0 < y then Real.pi / 2
  else if y < 0 then -(Real.pi / 2)
  else 0

/-- Haversine great-circle distance, from `MissionPlanner.calculateDistance`
(src/mission.js lines 487-501), Earth radius 6371e3 metres. -/
noncomputable def calculateDistance (lat1 lng1 lat2 lng2 : ℝ) : ℝ :=
  let R : ℝ := 6371000
  let phi1 := lat1 * Real.pi / 180
  let phi2 := lat2 * Real.pi / 180
  let dphi := (lat2 - lat1) * Real.pi / 180
  let dlam := (lng2 - lng1) * Real.pi / 180
  let a := Real.sin (dphi / 2) * Real.sin (dphi / 2) +
    Real.cos phi1 * Real.cos phi2 * (Real.sin (dlam / 2) * Real.sin (dlam / 2))
  let c := 2 * atan2 (Real.sqrt a) (Real.sqrt (1 - a))
  R * c

theorem calculateDistance_self (lat lng : ℝ) : calculateDistance lat lng lat lng = 0 := by
  unfold calculateDistance atan2
  simp

/-- Waypoint role, the `type` field of a waypoint object: `'waypoint'`,
`'home'` or `'rtl'`. -/
inductive WRole where
  | waypoint
  | home
  | rtl
deriving DecidableEq

/-- A waypoint as created by `MissionPlanner.addWaypoint`. -/
structure Waypoint where
  id : ℕ
  lat : ℝ
  lng : ℝ
  altitude : ℝ
  speed : ℝ
  hoverTime : ℝ
  type : WRole

instance : Inhabited Waypoint :=
  ⟨{ id := 0, lat := 0, lng := 0, altitude := 0, speed := 0, hoverTime := 0,
     type := WRole.waypoint }⟩

/-- The drone-profile fields consumed by the mission engine.  Optional
fields are absent (`none`) or present; JS truthiness tests on them are
modelled via `Option.getD 0`. -/
structure Drone where
  id : String
  name : String
  dtype : String
  cruiseSpeed : ℝ
  maxFlightTime : Option ℝ
  batteryCapacity : Option ℝ
  hoverCurrent : Option ℝ
  maxAltitude : Option ℝ
  windResistance : Option ℝ

/-- The engine-relevant mutable state of a `MissionPlanner` instance. -/
structure MissionState where
  waypoints : List Waypoint
  homePoint : Option (ℝ × ℝ)
  selectedDrone : Option Drone
  defaultAltitude : ℝ
  defaultSpeed : ℝ
  safetyReserve : ℝ
  windSpeed : ℝ
  nextId : ℕ

/-- JS `x || y` on numbers: yields `y` exactly when `x` is falsy (0). -/
noncomputable def jsOr (x y : ℝ) : ℝ :=
  if x = 0 then y else x

/-- Value of an optional JS number, with null/undefined read as 0 (falsy). -/
def optVal (o : Option ℝ) : ℝ :=
  o.getD 0

/-- `MissionPlanner.addWaypoint(lat, lng, type, altitude, speed, hoverTime)`
(src/mission.js lines 238-255): builds the waypoint record with the
`altitude || this.defaultAltitude` and
`speed || this.defaultSpeed || this.selectedDrone?.cruiseSpeed || 15`
fallback chains and pushes it at the end of the sequence.  There is no
validation of any argument.  Display updates are omitted. -/
noncomputable def addWaypoint (lat lng : ℝ) (wtype : WRole) (altitude speed : Option ℝ)
    (hoverTime : ℝ) (s : MissionState) : MissionState :=
  let wp : Waypoint :=
    { id := s.nextId
      lat := lat
      lng := lng
      altitude := jsOr (optVal altitude) s.defaultAltitude
      speed := jsOr (jsOr (jsOr (optVal speed) s.defaultSpeed)
        (optVal (s.selectedDrone.map (fun d => d.cruiseSpeed)))) 15
      hoverTime := hoverTime
      type := wtype }
  { s with waypoints := s.waypoints ++ [wp], nextId := s.nextId + 1 }

/-- `MissionPlanner.deleteWaypoint` (src/mission.js lines 315-334) for a
waypoint found at index `i`: `splice(i, 1)` on the sequence.  The
not-found branch (`indexOf` = -1) leaves the state unchanged and is the
`i ≥ length` case of `eraseIdx`. -/
def removeWaypoint (i : ℕ) (s : MissionState) : MissionState :=
  { s with waypoints := s.waypoints.eraseIdx i }

/-- `MissionPlanner.addReturnToLaunch` (src/mission.js lines 952-961):
no-op without a home point or when the last waypoint is already `rtl`,
otherwise appends an `rtl` waypoint at the home coordinates with the
default altitude. -/
noncomputable def addReturnToLaunch (s : MissionState) : MissionState :=
  match s.homePoint with
  | none => s
  | some hp =>
      if (s.waypoints.getLast?.map (fun w => w.type)) = some WRole.rtl then s
      else addWaypoint hp.1 hp.2 WRole.rtl (some s.defaultAltitude) none 0 s

/-- `MissionPlanner.clearMission` (src/mission.js lines 1022-1045) with the
confirm dialog answered yes: empties the sequence and clears the home
point.  On an already empty mission it returns immediately. -/
def clearMission (s : MissionState) : MissionState :=
  if s.waypoints.isEmpty then s
  else { s with waypoints := [], homePoint := none }

/-- `MissionPlanner.selectDrone` (src/mission.js lines 203-235) over a
drone-manager lookup `dm`: an empty id or a failed lookup clears the
selection; a successful lookup stores the drone and, when the default
speed is 0, replaces it by the drone cruise speed. -/
noncomputable def selectDrone (dm : String → Option Drone) (droneId : String)
    (s : MissionState) : MissionState :=
  if droneId = "" then { s with selectedDrone := none }
  else
    match dm droneId with
    | none => { s with selectedDrone := none }
    | some d =>
        if s.defaultSpeed = 0 then
          { s with selectedDrone := some d, defaultSpeed := d.cruiseSpeed }
        else { s with selectedDrone := some d }

/-- Sum of the consecutive-pair haversine distances, the loop body of
`MissionPlanner.getTotalDistance` (src/mission.js lines 503-514). -/
noncomputable def totalPathDistance : List Waypoint → ℝ
  | w1 :: w2 :: rest =>
      calculateDistance w1.lat w1.lng w2.lat w2.lng + totalPathDistance (w2 :: rest)
  | _ => 0

/-- `MissionPlanner.getTotalDistance`: 0 for fewer than 2 waypoints, else
the consecutive-pair sum. -/
noncomputable def getTotalDistance (s : MissionState) : ℝ :=
  if s.waypoints.length < 2 then 0 else totalPathDistance s.waypoints

/-- The `avgSpeed` local of `updateMissionSummary` (src/mission.js line
535): `this.defaultSpeed || drone.cruiseSpeed`. -/
noncomputable def effectiveSpeed (s : MissionState) (d : Drone) : ℝ :=
  jsOr s.defaultSpeed d.cruiseSpeed

/-- The `windFactor` local (line 536): `1 + (windSpeed / avgSpeed) * 0.3`. -/
noncomputable def windFactor (s : MissionState) (d : Drone) : ℝ :=
  1 + (s.windSpeed / effectiveSpeed s d) * 0.3

/-- The `adjustedSpeed` local (line 537). -/
noncomputable def adjustedSpeed (s : MissionState) (d : Drone) : ℝ :=
  effectiveSpeed s d / windFactor s d

/-- The `flightTime` local (line 538): travel minutes. -/
noncomputable def travelMinutes (s : MissionState) (d : Drone) : ℝ :=
  (getTotalDistance s / adjustedSpeed s d) / 60

/-- The `totalHoverTime` local (line 541):
`waypoints.reduce((sum, wp) => sum + (wp.hoverTime || 0), 0) / 60`. -/
noncomputable def hoverMinutes (s : MissionState) : ℝ :=
  (s.waypoints.foldl (fun acc wp => acc + jsOr wp.hoverTime 0) 0) / 60

/-- The `totalFlightTime` local (line 542). -/
noncomputable def totalFlightMinutes (s : MissionState) (d : Drone) : ℝ :=
  travelMinutes s d + hoverMinutes s

/-- The `batteryRequired` computation of `updateMissionSummary` (lines
547-554): `maxFlightTime` branch first, then the
`batteryCapacity`/`hoverCurrent` derived-maximum branch, else 0. -/
noncomputable def batteryRequired (s : MissionState) (d : Drone) : ℝ :=
  if optVal d.maxFlightTime ≠ 0 then
    (totalFlightMinutes s d / optVal d.maxFlightTime) * 100
  else if optVal d.batteryCapacity ≠ 0 ∧ optVal d.hoverCurrent ≠ 0 then
    (totalFlightMinutes s d /
      (optVal d.batteryCapacity / 1000 / optVal d.hoverCurrent * 60 * 0.8)) * 100
  else 0

/-- The `batteryWithReserve` local (line 557). -/
noncomputable def batteryWithReserve (s : MissionState) (d : Drone) : ℝ :=
  batteryRequired s d * (1 + s.safetyReserve / 100)

/-- Mission status as displayed by `updateMissionSummary` (lines 524-532
and 564-575).  `noDroneSelected` and `noWaypoints` are the two
indeterminate outcomes. -/
inductive MStatus where
  | noDroneSelected
  | noWaypoints
  | cannotComplete
  | risky
  | feasible
deriving DecidableEq

/-- The status verdict of `MissionPlanner.updateMissionSummary`
(src/mission.js lines 517-579): early exit without a drone or with fewer
than 2 waypoints, else the strict threshold chain
`> 100 → CANNOT COMPLETE`, `> 80 → RISKY`, else `FEASIBLE`. -/
noncomputable def missionStatus (s : MissionState) : MStatus :=
  match s.selectedDrone with
  | none => MStatus.noDroneSelected
  | some d =>
      if s.waypoints.length < 2 then MStatus.noWaypoints
      else if batteryWithReserve s d > 100 then MStatus.cannotComplete
      else if batteryWithReserve s d > 80 then MStatus.risky
      else MStatus.feasible

/-- Severity classes of the warning items built by `updateWarnings`. -/
inductive Severity where
  | info
  | warning
  | error
  | success
deriving DecidableEq

/-- The messages emitted by `MissionPlanner.updateWarnings`
(src/mission.js lines 690-768), one constructor per push site. -/
inductive WMsg where
  | selectDroneToStart
  | addWaypointsToCreate
  | exceedsBatteryCapacity
  | lowBatteryMargin
  | missionFeasible
  | exceedsMaxAltitude (limit : ℝ)
  | windExceedsCapabilities
  | noHomePointSet

/-- The battery figure recomputed inside `updateWarnings` (lines 706-717):
travel time only (no hover time) and only the `maxFlightTime` branch
(a drone without `maxFlightTime` keeps `batteryRequired = 0`). -/
noncomputable def warnBatteryRequired (s : MissionState) (d : Drone) : ℝ :=
  if optVal d.maxFlightTime ≠ 0 then
    (travelMinutes s d / optVal d.maxFlightTime) * 100
  else 0

/-- The ordered warning list built by `MissionPlanner.updateWarnings`
(src/mission.js lines 690-768).  `Math.max` over the nonempty altitude
list is modelled by `List.max?.getD 0`. -/
noncomputable def missionWarnings (s : MissionState) : List (Severity × WMsg) :=
  match s.selectedDrone with
  | none => [(Severity.info, WMsg.selectDroneToStart)]
  | some d =>
      if s.waypoints.length = 0 then [(Severity.info, WMsg.addWaypointsToCreate)]
      else
        let bw := warnBatteryRequired s d * (1 + s.safetyReserve / 100)
        (if bw > 100 then [(Severity.error, WMsg.exceedsBatteryCapacity)]
         else if bw > 80 then [(Severity.warning, WMsg.lowBatteryMargin)]
         else [(Severity.success, WMsg.missionFeasible)]) ++
        (if optVal d.maxAltitude ≠ 0 ∧
            ((s.waypoints.map (fun wp => wp.altitude)).max?.getD 0) > optVal d.maxAltitude
         then [(Severity.warning, WMsg.exceedsMaxAltitude (optVal d.maxAltitude))]
         else []) ++
        (if s.windSpeed > jsOr (optVal d.windResistance) 10
         then [(Severity.warning, WMsg.windExceedsCapabilities)]
         else []) ++
        (if s.homePoint = none then [(Severity.info, WMsg.noHomePointSet)]
         else [])

/-- The Catmull-Rom basis of `MissionPlanner.catmullRom` (src/mission.js
lines 474-484). -/
noncomputable def catmullRom (p0 p1 p2 p3 t : ℝ) : ℝ :=
  0.5 * ((2 * p1) + (-p0 + p2) * t + (2 * p0 - 5 * p1 + 4 * p2 - p3) * (t * t) +
    (-p0 + 3 * p1 - 3 * p2 + p3) * (t * t * t))

/-- One segment of the smooth path: the inner `t` loop of
`generateSmoothPath` for segment `i`, emitting 20 samples.  The JS index
clamp `Math.max(0, i - 1)` is ℕ subtraction `i - 1`. -/
noncomputable def smoothSegment (points : List (ℝ × ℝ)) (i : ℕ) : List (ℝ × ℝ) :=
  let p0 := points.getD (i - 1) (0, 0)
  let p1 := points.getD i (0, 0)
  let p2 := points.getD (i + 1) (0, 0)
  let p3 := points.getD (min (points.length - 1) (i + 2)) (0, 0)
  (List.range 20).map (fun (t : ℕ) =>
    let tn : ℝ := (t : ℝ) / 20
    (catmullRom p0.1 p1.1 p2.1 p3.1 tn, catmullRom p0.2 p1.2 p2.2 p3.2 tn))

/-- `MissionPlanner.generateSmoothPath` (src/mission.js lines 443-472) on
the coordinate sequence of the waypoints: identity below 3 points, else
20 Catmull-Rom samples per consecutive segment followed by the exact last
input coordinate. -/
noncomputable def generateSmoothPath (points : List (ℝ × ℝ)) : List (ℝ × ℝ) :=
  if points.length < 3 then points
  else
    ((List.range (points.length - 1)).map (smoothSegment points)).flatten ++
      [points.getD (points.length - 1) (0, 0)]

/-- The `remaining.forEach` scan of `optimizePath` (src/mission.js lines
988-997): fold over the indexed pool keeping the first index whose
distance to `cur` is a strict improvement.  The JS `nearestDist`
initialised to `Infinity` is the `none` accumulator: the first element
always replaces it, since every haversine value is a (finite) real. -/
noncomputable def nearestStep (cur : Waypoint) (acc : ℕ × Option ℝ)
    (iw : ℕ × Waypoint) : ℕ × Option ℝ :=
  match acc.2 with
  | none => (iw.1, some (calculateDistance cur.lat cur.lng iw.2.lat iw.2.lng))
  | some b =>
      if calculateDistance cur.lat cur.lng iw.2.lat iw.2.lng < b then
        (iw.1, some (calculateDistance cur.lat cur.lng iw.2.lat iw.2.lng))
      else acc

noncomputable def nearestScan (cur : Waypoint) (pool : List Waypoint) : ℕ × Option ℝ :=
  pool.enum.foldl (nearestStep cur) (0, none)

/-- The `while (remaining.length > 0)` loop of `optimizePath` (src/mission.js
lines 986-1001): repeatedly take the nearest pool element from the current
route tail and append it.  The impossible out-of-range branch returns `[]`;
`nearestScan_fst_lt` below shows it is never taken. -/
noncomputable def nnRoute (cur : Waypoint) (pool : List Waypoint) : List Waypoint :=
  if pool.length = 0 then []
  else
    let i := (nearestScan cur pool).1
    if h : i < pool.length then
      let w := pool.get ⟨i, h⟩
      w :: nnRoute w (pool.eraseIdx i)
    else []
termination_by pool.length
decreasing_by
  rw [List.length_eraseIdx_of_lt h]
  omega

/-- The `homeIndex` local of `optimizePath` (src/mission.js line 967).  JS
`findIndex` returns -1 when no match exists; `List.findIdx` returns the
length instead, so every `!== -1` test becomes a `< length` test. -/
noncomputable def homeIndex (s : MissionState) : ℕ :=
  s.waypoints.findIdx (fun w => w.type == WRole.home)

/-- The `rtlIndex` local of `optimizePath` (line 968). -/
noncomputable def rtlIndex (s : MissionState) : ℕ :=
  s.waypoints.findIdx (fun w => w.type == WRole.rtl)

/-- The `fixedPoints` local of `optimizePath` (lines 970-972). -/
noncomputable def fixedPoints (s : MissionState) : List ℕ :=
  (if homeIndex s < s.waypoints.length then [homeIndex s] else []) ++
    (if rtlIndex s < s.waypoints.length then [rtlIndex s] else [])

/-- The `optimizable` local of `optimizePath` (lines 975-977): the
waypoints of type `'waypoint'` whose index is not fixed. -/
noncomputable def optimizable (s : MissionState) : List Waypoint :=
  (s.waypoints.enum.filter
    (fun p => p.2.type == WRole.waypoint && !((fixedPoints s).contains p.1))).map
    (fun p => p.2)

/-- The `startPoint` local of `optimizePath` (line 982): the home waypoint
if present, else the first sequence element.  `waypoints[i]` is
`getD i default` (in range whenever used). -/
noncomputable def startPoint (s : MissionState) : Waypoint :=
  if homeIndex s < s.waypoints.length then s.waypoints.getD (homeIndex s) default
  else s.waypoints.getD 0 default

/-- `MissionPlanner.optimizePath` (src/mission.js lines 963-1020): no-op
below 3 waypoints or below 2 optimizable waypoints, else the
nearest-neighbour route from the start point over the optimizable pool,
with the `rtl` waypoint (when found) appended last. -/
noncomputable def optimizePath (s : MissionState) : MissionState :=
  if s.waypoints.length < 3 then s
  else if (optimizable s).length < 2 then s
  else
    { s with
      waypoints :=
        startPoint s ::
          (nnRoute (startPoint s) (optimizable s) ++
            (if rtlIndex s < s.waypoints.length then
              [s.waypoints.getD (rtlIndex s) default]
             else [])) }

/-- The drone reference stored in an exported mission document. -/
structure DroneRef where
  id : String
  name : String
  dtype : String

/-- The `parameters` block of a mission document. -/
structure DocParams where
  defaultAltitude : ℝ
  defaultSpeed : ℝ
  safetyReserve : ℝ
  windSpeed : ℝ

/-- One entry of the `waypoints` array of a mission document. -/
structure DocWaypoint where
  index : ℕ
  latitude : ℝ
  longitude : ℝ
  altitude : ℝ
  speed : ℝ
  hoverTime : ℝ
  type : WRole

/-- A parsed mission document (metadata and summary blocks are
informational only and omitted). -/
structure MissionDoc where
  drone : DroneRef
  parameters : DocParams
  waypoints : List DocWaypoint

/-- `MissionPlanner.exportMission` (src/mission.js lines 1048-1095): `none`
encodes the early return without waypoints or drone, otherwise the
serialized document. -/
noncomputable def exportMission (s : MissionState) : Option MissionDoc :=
  match s.selectedDrone with
  | none => none
  | some d =>
      if s.waypoints.length = 0 then none
      else
        some
          { drone := { id := d.id, name := d.name, dtype := d.dtype }
            parameters :=
              { defaultAltitude := s.defaultAltitude
                defaultSpeed := s.defaultSpeed
                safetyReserve := s.safetyReserve
                windSpeed := s.windSpeed }
            waypoints := s.waypoints.enum.map (fun p =>
              { index := p.1
                latitude := p.2.lat
                longitude := p.2.lng
                altitude := p.2.altitude
                speed := p.2.speed
                hoverTime := p.2.hoverTime
                type := p.2.type }) }

/-- `MissionPlanner.importMission` (src/mission.js lines 1097-1157).  The
`JSON.parse` outcome is the `Except` argument: on a parse error the catch
block only reports the message, so the state is returned untouched with
the surfaced reason.  On success: clear, drone selection (when the id is
truthy), parameter load with `|| 50 / || 0 / || 20 / || 0` fallbacks,
then `addWaypoint` per document entry in order, then the home point from
the first `home`-typed entry. -/
noncomputable def importWaypointStep (st : MissionState) (wp : DocWaypoint) : MissionState :=
  addWaypoint wp.latitude wp.longitude wp.type (some wp.altitude) (some wp.speed)
    (jsOr wp.hoverTime 0) st

/-- `MissionPlanner.importMission`, continued: the full operation over the
parsed document (see the comment on `importWaypointStep` above, which is
the per-entry `addWaypoint` call of the waypoint-loading loop). -/
noncomputable def importMission (dm : String → Option Drone)
    (parsed : Except String MissionDoc) (s : MissionState) :
    MissionState × Option String :=
  match parsed with
  | Except.error msg => (s, some msg)
  | Except.ok doc =>
      let s1 := clearMission s
      let s2 := if doc.drone.id ≠ "" then selectDrone dm doc.drone.id s1 else s1
      let s3 :=
        { s2 with
          defaultAltitude := jsOr doc.parameters.defaultAltitude 50
          defaultSpeed := jsOr doc.parameters.defaultSpeed 0
          safetyReserve := jsOr doc.parameters.safetyReserve 20
          windSpeed := jsOr doc.parameters.windSpeed 0 }
      let s4 := doc.waypoints.foldl importWaypointStep s3
      let s5 :=
        match doc.waypoints.find? (fun wp => wp.type == WRole.home) with
        | some h => { s4 with homePoint := some (h.latitude, h.longitude) }
        | none => s4
      (s5, none)

/-- A JavaScript IEEE-754 double restricted to the values reachable here:
an exact (rational) number, the two infinities, or NaN. -/
inductive JNum where
  | num (q : ℚ)
  | posInf
  | negInf
  | nan
deriving DecidableEq

/-- JS addition on `JNum`. -/
def jAdd : JNum → JNum → JNum
  | JNum.nan, _ => JNum.nan
  | _, JNum.nan => JNum.nan
  | JNum.posInf, JNum.negInf => JNum.nan
  | JNum.negInf, JNum.posInf => JNum.nan
  | JNum.posInf, _ => JNum.posInf
  | _, JNum.posInf => JNum.posInf
  | JNum.negInf, _ => JNum.negInf
  | _, JNum.negInf => JNum.negInf
  | JNum.num a, JNum.num b => JNum.num (a + b)

/-- JS multiplication on `JNum`. -/
def jMul : JNum → JNum → JNum
  | JNum.nan, _ => JNum.nan
  | _, JNum.nan => JNum.nan
  | JNum.num a, JNum.num b => JNum.num (a * b)
  | JNum.num a, JNum.posInf =>
      if 0 < a then JNum.posInf else if a < 0 then JNum.negInf else JNum.nan
  | JNum.num a, JNum.negInf =>
      if 0 < a then JNum.negInf else if a < 0 then JNum.posInf else JNum.nan
  | JNum.posInf, JNum.num b =>
      if 0 < b then JNum.posInf else if b < 0 then JNum.negInf else JNum.nan
  | JNum.negInf, JNum.num b =>
      if 0 < b then JNum.negInf else if b < 0 then JNum.posInf else JNum.nan
  | JNum.posInf, JNum.posInf => JNum.posInf
  | JNum.posInf, JNum.negInf => JNum.negInf
  | JNum.negInf, JNum.posInf => JNum.negInf
  | JNum.negInf, JNum.negInf => JNum.posInf

/-- JS division on `JNum` (signed zero ignored: 0 is treated as +0, as in
every division the source performs on reachable values). -/
def jDiv : JNum → JNum → JNum
  | JNum.nan, _ => JNum.nan
  | _, JNum.nan => JNum.nan
  | JNum.num a, JNum.num b =>
      if b ≠ 0 then JNum.num (a / b)
      else if 0 < a then JNum.posInf
      else if a < 0 then JNum.negInf
      else JNum.nan
  | JNum.num _, JNum.posInf => JNum.num 0
  | JNum.num _, JNum.negInf => JNum.num 0
  | JNum.posInf, JNum.num b => if 0 ≤ b then JNum.posInf else JNum.negInf
  | JNum.negInf, JNum.num b => if 0 ≤ b then JNum.negInf else JNum.posInf
  | JNum.posInf, JNum.posInf => JNum.nan
  | JNum.posInf, JNum.negInf => JNum.nan
  | JNum.negInf, JNum.posInf => JNum.nan
  | JNum.negInf, JNum.negInf => JNum.nan

/-- JS `>` on `JNum`: any comparison with NaN is false. -/
def jGt : JNum → JNum → Bool
  | JNum.nan, _ => false
  | _, JNum.nan => false
  | JNum.num a, JNum.num b => decide (b < a)
  | JNum.posInf, JNum.posInf => false
  | JNum.posInf, _ => true
  | _, JNum.posInf => false
  | JNum.negInf, _ => false
  | JNum.num _, JNum.negInf => true

/-- The numeric pipeline of `updateMissionSummary` (src/mission.js lines
517-575) under actual JS float semantics (`JNum`), as a function of the
values it reads: drone presence, waypoint count, total distance, the
mission parameters, the drone performance fields and the hover-time sum.
This is the faithful model at inputs where a division by zero occurs,
which the ℝ model cannot represent. -/
def summaryStatusJS (hasDrone : Bool) (numWaypoints : ℕ)
    (totalDistance defaultSpeed cruiseSpeed windSpeed safetyReserve hoverSeconds : ℚ)
    (maxFlightTime batteryCapacity hoverCurrent : Option ℚ) : MStatus :=
  if !hasDrone then MStatus.noDroneSelected
  else if numWaypoints < 2 then MStatus.noWaypoints
  else
    let avgSpeed : ℚ := if defaultSpeed ≠ 0 then defaultSpeed else cruiseSpeed
    let wf := jAdd (JNum.num 1)
      (jMul (jDiv (JNum.num windSpeed) (JNum.num avgSpeed)) (JNum.num (3 / 10)))
    let adjSpeed := jDiv (JNum.num avgSpeed) wf
    let flightTime := jDiv (jDiv (JNum.num totalDistance) adjSpeed) (JNum.num 60)
    let totalFlightTime := jAdd flightTime (JNum.num (hoverSeconds / 60))
    let mft : ℚ := maxFlightTime.getD 0
    let bc : ℚ := batteryCapacity.getD 0
    let hc : ℚ := hoverCurrent.getD 0
    let br :=
      if mft ≠ 0 then jMul (jDiv totalFlightTime (JNum.num mft)) (JNum.num 100)
      else if bc ≠ 0 ∧ hc ≠ 0 then
        jMul (jDiv totalFlightTime (JNum.num (bc / 1000 / hc * 60 * (4 / 5))))
          (JNum.num 100)
      else JNum.num 0
    let bw := jMul br (JNum.num (1 + safetyReserve / 100))
    if jGt bw (JNum.num 100) then MStatus.cannotComplete
    else if jGt bw (JNum.num 80) then MStatus.risky
    else MStatus.feasible

theorem jsOr_zero_right (x : ℝ) : jsOr x 0 = x := by
  unfold jsOr
  split <;> simp_all

theorem jsOr_of_ne_zero {x : ℝ} (h : x ≠ 0) (y : ℝ) : jsOr x y = x := by
  simp [jsOr, h]

theorem jsOr_zero_left (y : ℝ) : jsOr 0 y = y := by
  simp [jsOr]

theorem jsOr_ne_zero {y : ℝ} (x : ℝ) (h : y ≠ 0) : jsOr x y ≠ 0 := by
  unfold jsOr
  split <;> simp_all

theorem jsOr_eq_zero {x y : ℝ} (h : jsOr x y = 0) : y = 0 ∨ x ≠ 0 ∧ x = 0 := by
  unfold jsOr at h
  split at h <;> simp_all

/-- A drone profile used as a concrete test fixture. -/
noncomputable def testDrone : Drone :=
  { id := "d1", name := "TestDrone", dtype := "quadcopter", cruiseSpeed := 15,
    maxFlightTime := some 10, batteryCapacity := none, hoverCurrent := none,
    maxAltitude := none, windResistance := none }

/-- An empty mission with the test drone selected, used as a concrete
starting state for witnesses. -/
noncomputable def baseState : MissionState :=
  { waypoints := [], homePoint := none, selectedDrone := some testDrone,
    defaultAltitude := 50, defaultSpeed := 15, safetyReserve := 0,
    windSpeed := 0, nextId := 0 }

/-- An ordinary concrete waypoint fixture. -/
noncomputable def ordWp : Waypoint :=
  { id := 0, lat := 0, lng := 0, altitude := 50, speed := 15, hoverTime := 0,
    type := WRole.waypoint }

/-- C4 (division-by-zero is not guarded): with a drone selected (cruise
speed 0, maxFlightTime 20), two waypoints, defaultSpeed 0, windSpeed 0
and safetyReserve 20, the effective speed is 0 and the JS pipeline
computes `windFactor = 1 + (0/0)*0.3 = NaN`, propagates NaN into
`batteryWithReserve`, and — since `NaN > 100` and `NaN > 80` are both
false — reports the mission as FEASIBLE instead of an indeterminate
status. -/
theorem zero_speed_reports_feasible :
    summaryStatusJS true 2 0 0 0 0 20 0 (some 20) none none = MStatus.feasible ∧
    summaryStatusJS true 2 0 0 0 0 20 0 (some 20) none none ≠ MStatus.noDroneSelected ∧
    summaryStatusJS true 2 0 0 0 0 20 0 (some 20) none none ≠ MStatus.noWaypoints := by
  refine ⟨?_, ?_, ?_⟩ <;> decide

/-- C9: when JSON parsing of the imported document fails, `importMission`
surfaces the parse failure reason to the caller and returns the mission
state completely unmodified. -/
theorem importMission_parse_failure_atomic (dm : String → Option Drone)
    (msg : String) (s : MissionState) :
    importMission dm (Except.error msg) s = (s, some msg) := rfl

/-- C6 (no coordinate validation exists): `addWaypoint` with latitude 91
(outside [-90, 90]) and longitude 200 (outside [-180, 180]) appends the
waypoint with those exact coordinates; the sequence grows and no error of
any kind is raised. -/
theorem addWaypoint_accepts_invalid_latitude :
    ((addWaypoint 91 200 WRole.waypoint none none 0 baseState).waypoints.map
      (fun w => (w.lat, w.lng))) = [(91, 200)] ∧
    (addWaypoint 91 200 WRole.waypoint none none 0 baseState).waypoints.length = 1 ∧
    baseState.waypoints.length = 0 := by
  refine ⟨?_, ?_, ?_⟩ <;> simp [addWaypoint, baseState]

/-- C10 amended: `addWaypoint` appends exactly one waypoint; altitude 0 or
null falls back to `defaultAltitude`; speed 0 or null falls back to
`defaultSpeed`, else the selected drone cruise speed, else 15; the stored
speed is never 0; the stored altitude can be 0 only when `defaultAltitude`
is itself 0. -/
theorem addWaypoint_fallbacks (lat lng : ℝ) (wtype : WRole) (alt sp : Option ℝ)
    (hov : ℝ) (s : MissionState) :
    ∃ wp, (addWaypoint lat lng wtype alt sp hov s).waypoints = s.waypoints ++ [wp] ∧
      ((alt = none ∨ alt = some 0) → wp.altitude = s.defaultAltitude) ∧
      ((sp = none ∨ sp = some 0) →
        wp.speed = jsOr (jsOr s.defaultSpeed
          (optVal (s.selectedDrone.map (fun d => d.cruiseSpeed)))) 15) ∧
      wp.speed ≠ 0 ∧
      (wp.altitude = 0 → s.defaultAltitude = 0) := by
  refine ⟨_, rfl, ?_, ?_, ?_, ?_⟩
  · rintro (rfl | rfl) <;> simp [optVal, jsOr_zero_left]
  · rintro (rfl | rfl) <;> simp [optVal, jsOr_zero_left]
  · exact jsOr_ne_zero _ (by norm_num)
  · intro h0
    rcases jsOr_eq_zero h0 with h | ⟨_, h⟩
    · exact h
    · simp [h] at h0
      simpa [jsOr, h] using h0

/-- C10 amended, witnessed at a concrete input: adding a waypoint with
altitude 0 and speed 0 to `baseState` stores altitude 50 (the default)
and speed 15 (the default speed), which is nonzero. -/
theorem addWaypoint_fallbacks_witness :
    ∃ wp, (addWaypoint 0 0 WRole.waypoint (some 0) (some 0) 0 baseState).waypoints =
        baseState.waypoints ++ [wp] ∧ wp.altitude = 50 ∧ wp.speed = 15 ∧ wp.speed ≠ 0 := by
  obtain ⟨wp, heq, halt, hsp, hne, _⟩ :=
    addWaypoint_fallbacks 0 0 WRole.waypoint (some 0) (some 0) 0 baseState
  refine ⟨wp, heq, ?_, ?_, hne⟩
  · rw [halt (Or.inr rfl)]
    simp [baseState]
  · rw [hsp (Or.inr rfl)]
    simp [baseState, testDrone, optVal]
    norm_num [jsOr]

/-- A mission state whose `defaultAltitude` is 0. -/
noncomputable def zeroAltState : MissionState :=
  { baseState with defaultAltitude := 0 }

/-- C10 counterexample: when `defaultAltitude` is 0, the public add
operation creates a waypoint whose stored altitude is 0, so a
0-altitude waypoint can be created. -/
theorem addWaypoint_zero_default_altitude :
    ((addWaypoint 0 0 WRole.waypoint (some 0) none 0 zeroAltState).waypoints.map
      (fun w => w.altitude)) = [0] := by
  simp [addWaypoint, zeroAltState, baseState, jsOr, optVal]

/-- C8: `generateSmoothPath` is a function of the coordinate sequence with
a fixed output shape: identity for fewer than 3 points, and for n ≥ 3
exactly `20·(n-1) + 1` points whose last element is exactly the final
input coordinate. -/
theorem generateSmoothPath_shape (points : List (ℝ × ℝ)) :
    (points.length < 3 → generateSmoothPath points = points) ∧
    (3 ≤ points.length →
      (generateSmoothPath points).length = 20 * (points.length - 1) + 1 ∧
      (generateSmoothPath points).getLast? = points.getLast?) := by
  constructor
  · intro h
    simp [generateSmoothPath, h]
  · intro h
    have hlt : ¬ points.length < 3 := by omega
    constructor
    · simp only [generateSmoothPath, hlt, if_false]
      rw [List.length_append, List.length_flatten, List.map_map]
      have hseg : (List.range (points.length - 1)).map (List.length ∘ smoothSegment points)
          = (List.range (points.length - 1)).map (fun _ => 20) := by
        apply List.map_congr_left
        intro i _
        show (smoothSegment points i).length = 20
        rw [smoothSegment, List.length_map, List.length_range]
      rw [hseg, List.map_const', List.sum_replicate, List.length_range, smul_eq_mul,
        List.length_singleton]
      omega
    · simp only [generateSmoothPath, hlt, if_false]
      rw [List.getLast?_concat,
        List.getD_eq_getElem points (0, 0) (by omega : points.length - 1 < points.length),
        List.getLast?_eq_getElem?, List.getElem?_eq_getElem (by omega)]

/-- C8 witnessed at concrete inputs: a 2-point path is returned unchanged;
a 4-point path yields 61 points ending exactly at the last waypoint. -/
theorem generateSmoothPath_shape_witness :
    generateSmoothPath [((0 : ℝ), (0 : ℝ)), (1, 1)] = [((0 : ℝ), (0 : ℝ)), (1, 1)] ∧
    (generateSmoothPath [((0 : ℝ), (0 : ℝ)), (1, 1), (2, 0), (3, 1)]).length = 61 ∧
    (generateSmoothPath [((0 : ℝ), (0 : ℝ)), (1, 1), (2, 0), (3, 1)]).getLast? =
      some (3, 1) := by
  refine ⟨(generateSmoothPath_shape _).1 (by norm_num), ?_, ?_⟩
  · have h := ((generateSmoothPath_shape
      [((0 : ℝ), (0 : ℝ)), (1, 1), (2, 0), (3, 1)]).2 (by norm_num)).1
    simpa using h
  · have h := ((generateSmoothPath_shape
      [((0 : ℝ), (0 : ℝ)), (1, 1), (2, 0), (3, 1)]).2 (by norm_num)).2
    rw [h]
    rfl

/-- Evaluation of `missionStatus` once a drone is selected and at least two
waypoints exist. -/
theorem missionStatus_eval (s : MissionState) (d : Drone)
    (hd : s.selectedDrone = some d) (hw : ¬ s.waypoints.length < 2) :
    missionStatus s =
      (if batteryWithReserve s d > 100 then MStatus.cannotComplete
       else if batteryWithReserve s d > 80 then MStatus.risky
       else MStatus.feasible) := by
  unfold missionStatus
  rw [hd]
  simp [hw]

/-- Two waypoints at identical coordinates whose hover times sum to 480 s:
with the test drone (maxFlightTime 10) and safetyReserve 0 the computed
battery-with-reserve figure is exactly 80. -/
noncomputable def stateBW80 : MissionState :=
  { baseState with
    waypoints := [{ ordWp with hoverTime := 240 }, { ordWp with id := 1, hoverTime := 240 }],
    nextId := 2 }

/-- Like `stateBW80` but with hover times summing to 600 s, giving a
battery-with-reserve figure of exactly 100. -/
noncomputable def stateBW100 : MissionState :=
  { baseState with
    waypoints := [{ ordWp with hoverTime := 300 }, { ordWp with id := 1, hoverTime := 300 }],
    nextId := 2 }

theorem bw_stateBW80 : batteryWithReserve stateBW80 testDrone = 80 := by
  norm_num [batteryWithReserve, batteryRequired, totalFlightMinutes, travelMinutes,
    hoverMinutes, adjustedSpeed, windFactor, effectiveSpeed, getTotalDistance,
    totalPathDistance, stateBW80, baseState, ordWp, testDrone, optVal, jsOr,
    calculateDistance_self]

theorem bw_stateBW100 : batteryWithReserve stateBW100 testDrone = 100 := by
  norm_num [batteryWithReserve, batteryRequired, totalFlightMinutes, travelMinutes,
    hoverMinutes, adjustedSpeed, windFactor, effectiveSpeed, getTotalDistance,
    totalPathDistance, stateBW100, baseState, ordWp, testDrone, optVal, jsOr,
    calculateDistance_self]

/-- C2 amended: with a drone and at least 2 waypoints, a computed
`batteryWithReserve` of exactly 80 yields status FEASIBLE (RISKY requires
strictly more than 80), and exactly 100 yields RISKY (CANNOT COMPLETE
requires strictly more than 100). -/
theorem status_boundary_amended (s : MissionState) (d : Drone)
    (hd : s.selectedDrone = some d) (hw : 2 ≤ s.waypoints.length) :
    (batteryWithReserve s d = 80 → missionStatus s = MStatus.feasible) ∧
    (batteryWithReserve s d = 100 → missionStatus s = MStatus.risky) := by
  have hlen : ¬ s.waypoints.length < 2 := by omega
  rw [missionStatus_eval s d hd hlen]
  constructor <;> intro hbw <;> rw [hbw] <;> norm_num

/-- C2 amended, witnessed at the two concrete boundary states. -/
theorem status_boundary_amended_witness :
    missionStatus stateBW80 = MStatus.feasible ∧
    missionStatus stateBW100 = MStatus.risky := by
  constructor
  · exact (status_boundary_amended stateBW80 testDrone rfl
      (by norm_num [stateBW80, baseState])).1 bw_stateBW80
  · exact (status_boundary_amended stateBW100 testDrone rfl
      (by norm_num [stateBW100, baseState])).2 bw_stateBW100

/-- C2 counterexample: at `batteryWithReserve` exactly 80 the code reports
FEASIBLE, not RISKY; at exactly 100 it reports RISKY, not CANNOT
COMPLETE.  Both thresholds in the source are strict comparisons. -/
theorem status_boundary_counterexample :
    batteryWithReserve stateBW80 testDrone = 80 ∧
    missionStatus stateBW80 ≠ MStatus.risky ∧
    batteryWithReserve stateBW100 testDrone = 100 ∧
    missionStatus stateBW100 ≠ MStatus.cannotComplete := by
  have h80 : missionStatus stateBW80 = MStatus.feasible := by
    rw [missionStatus_eval stateBW80 testDrone rfl (by norm_num [stateBW80, baseState]),
      bw_stateBW80]
    norm_num
  have h100 : missionStatus stateBW100 = MStatus.risky := by
    rw [missionStatus_eval stateBW100 testDrone rfl (by norm_num [stateBW100, baseState]),
      bw_stateBW100]
    norm_num
  refine ⟨bw_stateBW80, ?_, bw_stateBW100, ?_⟩ <;> simp [h80, h100]

theorem nearestStep_cases (cur : Waypoint) (acc : ℕ × Option ℝ) (iw : ℕ × Waypoint) :
    nearestStep cur acc iw = acc ∨
    nearestStep cur acc iw =
      (iw.1, some (calculateDistance cur.lat cur.lng iw.2.lat iw.2.lng)) := by
  rcases acc with ⟨j, b⟩
  cases b with
  | none => exact Or.inr rfl
  | some b =>
      unfold nearestStep
      dsimp only
      split
      · exact Or.inr rfl
      · exact Or.inl rfl

theorem foldl_nearestStep_cases (cur : Waypoint) (l : List (ℕ × Waypoint)) :
    ∀ acc : ℕ × Option ℝ,
      l.foldl (nearestStep cur) acc = acc ∨
      ∃ p ∈ l, (l.foldl (nearestStep cur) acc).1 = p.1 := by
  induction l with
  | nil => intro acc; exact Or.inl rfl
  | cons x t ih =>
      intro acc
      rw [List.foldl_cons]
      rcases ih (nearestStep cur acc x) with h | ⟨p, hp, hfst⟩
      · rw [h]
        rcases nearestStep_cases cur acc x with h2 | h2
        · exact Or.inl h2
        · exact Or.inr ⟨x, List.mem_cons_self x t, by rw [h2]⟩
      · exact Or.inr ⟨p, List.mem_cons_of_mem x hp, hfst⟩

theorem nearestScan_fst_lt (cur : Waypoint) (pool : List Waypoint) (h : pool ≠ []) :
    (nearestScan cur pool).1 < pool.length := by
  unfold nearestScan
  rcases foldl_nearestStep_cases cur pool.enum (0, none) with h1 | ⟨p, hp, hfst⟩
  · rw [h1]
    exact List.length_pos.2 h
  · rw [hfst]
    have hg := List.mem_enum_iff_getElem?.1 hp
    exact (List.getElem?_eq_some.1 (by simpa using hg)).1

theorem get_cons_eraseIdx_perm {α : Type _} :
    ∀ (l : List α) (i : ℕ) (h : i < l.length),
      List.Perm (l.get ⟨i, h⟩ :: l.eraseIdx i) l := by
  intro l
  induction l with
  | nil => intro i h; simp at h
  | cons a t ih =>
      intro i h
      cases i with
      | zero => simp [List.eraseIdx]
      | succ i =>
          have hi : i < t.length := by simpa using h
          show List.Perm (t.get ⟨i, hi⟩ :: a :: t.eraseIdx i) (a :: t)
          exact (List.Perm.swap a (t.get ⟨i, hi⟩) (t.eraseIdx i)).trans ((ih i hi).cons a)

theorem nnRoute_perm (cur : Waypoint) (pool : List Waypoint) :
    List.Perm (nnRoute cur pool) pool := by
  rw [nnRoute]
  split
  · next h0 =>
      have : pool = [] := List.length_eq_zero.1 h0
      simp [this]
  · next h0 =>
      have hne : pool ≠ [] := by
        intro he
        rw [he] at h0
        simp at h0
      have hlt := nearestScan_fst_lt cur pool hne
      rw [dif_pos hlt]
      exact ((nnRoute_perm _ _).cons _).trans (get_cons_eraseIdx_perm pool _ hlt)
termination_by pool.length
decreasing_by
  rw [List.length_eraseIdx_of_lt hlt]
  have : 0 < pool.length := List.length_pos.2 hne
  omega

/-- The sequence invariant of the data model: every waypoint before the
last one is not `rtl`; equivalently, at most one `rtl` waypoint exists and
if present it is the last element. -/
def RtlLast (ws : List Waypoint) : Prop :=
  ∀ w ∈ ws.dropLast, w.type ≠ WRole.rtl

theorem rtlLast_of_cons {a : Waypoint} {ws : List Waypoint} (h : RtlLast (a :: ws)) :
    RtlLast ws := by
  intro w hw
  apply h
  cases ws with
  | nil => simp at hw
  | cons b t =>
      rw [List.dropLast_cons₂]
      exact List.mem_cons_of_mem a hw

theorem rtlLast_head {a : Waypoint} {ws : List Waypoint} (h : RtlLast (a :: ws))
    (hne : ws ≠ []) : a.type ≠ WRole.rtl := by
  apply h
  cases ws with
  | nil => exact absurd rfl hne
  | cons b t =>
      rw [List.dropLast_cons₂]
      exact List.mem_cons_self _ _

theorem rtlLast_append_singleton {ws : List Waypoint} {w : Waypoint}
    (hws : ∀ x ∈ ws, x.type ≠ WRole.rtl) : RtlLast (ws ++ [w]) := by
  intro x hx
  rw [List.dropLast_concat] at hx
  exact hws x hx

theorem rtlLast_of_all {l : List Waypoint} (h : ∀ w ∈ l, w.type ≠ WRole.rtl) :
    RtlLast l :=
  fun w hw => h w (List.dropLast_subset l hw)

theorem rtlLast_all {ws : List Waypoint} (hinv : RtlLast ws)
    (hlast : ws.getLast?.map (fun w => w.type) ≠ some WRole.rtl) :
    ∀ x ∈ ws, x.type ≠ WRole.rtl := by
  rcases List.eq_nil_or_concat ws with rfl | ⟨L, b, rfl⟩
  · intro x hx
    simp at hx
  · intro x hx
    rw [List.concat_eq_append] at hx hinv hlast
    rcases List.mem_append.1 hx with hL | hb
    · exact hinv x (by rw [List.dropLast_concat]; exact hL)
    · have hxb : x = b := by simpa using hb
      subst hxb
      intro hxrtl
      apply hlast
      rw [List.getLast?_concat]
      simp [hxrtl]

theorem rtlLast_eraseIdx : ∀ (ws : List Waypoint) (i : ℕ),
    RtlLast ws → RtlLast (ws.eraseIdx i) := by
  intro ws
  induction ws with
  | nil => intro i _ w hw; simp at hw
  | cons a t ih =>
      intro i hinv
      cases i with
      | zero => simpa [List.eraseIdx] using rtlLast_of_cons hinv
      | succ i =>
          show RtlLast (a :: t.eraseIdx i)
          intro w hw
          cases he : t.eraseIdx i with
          | nil =>
              rw [he] at hw
              simp at hw
          | cons b u =>
              rw [he, List.dropLast_cons₂] at hw
              rcases List.mem_cons.1 hw with rfl | hmem
              · have htne : t ≠ [] := by
                  intro h0
                  rw [h0] at he
                  simp [List.eraseIdx] at he
                exact rtlLast_head hinv htne
              · have hrec := ih i (rtlLast_of_cons hinv)
                apply hrec
                rw [he]
                exact hmem

theorem addReturnToLaunch_preserves_rtlLast (s : MissionState)
    (hinv : RtlLast s.waypoints) : RtlLast (addReturnToLaunch s).waypoints := by
  unfold addReturnToLaunch
  cases hhp : s.homePoint with
  | none => exact hinv
  | some hp =>
      dsimp only
      split
      · exact hinv
      · next hguard => exact rtlLast_append_singleton (rtlLast_all hinv hguard)

theorem mem_optimizable_type (s : MissionState) :
    ∀ w ∈ optimizable s, w.type = WRole.waypoint := by
  intro w hw
  rcases List.mem_map.1 hw with ⟨p, hp, rfl⟩
  have h := List.of_mem_filter hp
  simp only [Bool.and_eq_true, beq_iff_eq] at h
  exact h.1

theorem startPoint_not_rtl (s : MissionState) (hinv : RtlLast s.waypoints)
    (h3 : 3 ≤ s.waypoints.length) : (startPoint s).type ≠ WRole.rtl := by
  unfold startPoint
  split
  · next hh =>
      rw [List.getD_eq_getElem _ _ hh]
      have hh2 : s.waypoints.findIdx (fun w => w.type == WRole.home) <
          s.waypoints.length := hh
      have hp := List.findIdx_getElem (w := hh2)
      simp only [beq_iff_eq] at hp
      intro hcon
      exact absurd (hp.symm.trans hcon) (by simp)
  · next hh =>
      have h0 : 0 < s.waypoints.length := by omega
      rw [List.getD_eq_getElem _ _ h0]
      apply hinv
      rw [List.dropLast_eq_take]
      have h0t : 0 < (s.waypoints.take (s.waypoints.length - 1)).length := by
        simp
        omega
      have hget : (s.waypoints.take (s.waypoints.length - 1))[0] = s.waypoints[0] :=
        List.getElem_take _
      rw [← hget]
      exact List.getElem_mem h0t

theorem optimizePath_preserves_rtlLast (s : MissionState)
    (hinv : RtlLast s.waypoints) : RtlLast (optimizePath s).waypoints := by
  unfold optimizePath
  split
  · exact hinv
  split
  · exact hinv
  next h3 h2 =>
  have hstart : (startPoint s).type ≠ WRole.rtl := startPoint_not_rtl s hinv (by omega)
  have hnn : ∀ w ∈ nnRoute (startPoint s) (optimizable s), w.type ≠ WRole.rtl := by
    intro w hw
    have hmem := (nnRoute_perm (startPoint s) (optimizable s)).mem_iff.1 hw
    rw [mem_optimizable_type s w hmem]
    simp
  dsimp only
  split
  · show RtlLast (startPoint s ::
      (nnRoute (startPoint s) (optimizable s) ++ [s.waypoints.getD (rtlIndex s) default]))
    rw [← List.cons_append]
    apply rtlLast_append_singleton
    intro x hx
    rcases List.mem_cons.1 hx with rfl | hx2
    · exact hstart
    · exact hnn x hx2
  · show RtlLast (startPoint s :: (nnRoute (startPoint s) (optimizable s) ++ []))
    apply rtlLast_of_all
    intro x hx
    rw [List.append_nil] at hx
    rcases List.mem_cons.1 hx with rfl | hx2
    · exact hstart
    · exact hnn x hx2

/-- C5 amended: the invariant "at most one `rtl` waypoint, and if present
it is last" is preserved by `addReturnToLaunch`, by waypoint removal and
by `optimizePath` from any state satisfying it; `addWaypoint` preserves it
only when no `rtl` waypoint is present (appending when an `rtl` waypoint
exists places the new waypoint after it). -/
theorem rtl_invariant_preservation (s : MissionState) (hinv : RtlLast s.waypoints) :
    RtlLast (addReturnToLaunch s).waypoints ∧
    (∀ i, RtlLast (removeWaypoint i s).waypoints) ∧
    RtlLast (optimizePath s).waypoints ∧
    ((∀ w ∈ s.waypoints, w.type ≠ WRole.rtl) →
      ∀ lat lng wtype alt sp hov,
        RtlLast (addWaypoint lat lng wtype alt sp hov s).waypoints) :=
  ⟨addReturnToLaunch_preserves_rtlLast s hinv,
   fun i => rtlLast_eraseIdx s.waypoints i hinv,
   optimizePath_preserves_rtlLast s hinv,
   fun hno _ _ _ _ _ _ => rtlLast_append_singleton hno⟩

/-- An `rtl`-typed concrete waypoint fixture. -/
noncomputable def rtlWp : Waypoint :=
  { id := 1, lat := 0, lng := 0, altitude := 50, speed := 15, hoverTime := 0,
    type := WRole.rtl }

/-- A state satisfying the rtl invariant: one ordinary waypoint followed by
the `rtl` waypoint. -/
noncomputable def rtlMidState : MissionState :=
  { baseState with waypoints := [ordWp, rtlWp], homePoint := some (0, 0), nextId := 2 }

/-- C5 amended, witnessed at `rtlMidState`. -/
theorem rtl_invariant_preservation_witness :
    RtlLast (addReturnToLaunch rtlMidState).waypoints ∧
    (∀ i, RtlLast (removeWaypoint i rtlMidState).waypoints) ∧
    RtlLast (optimizePath rtlMidState).waypoints ∧
    ((∀ w ∈ rtlMidState.waypoints, w.type ≠ WRole.rtl) →
      ∀ lat lng wtype alt sp hov,
        RtlLast (addWaypoint lat lng wtype alt sp hov rtlMidState).waypoints) :=
  rtl_invariant_preservation rtlMidState (by
    intro w hw
    simp [rtlMidState, baseState] at hw
    rw [hw]
    simp [ordWp])

/-- C5 counterexample: from the invariant-satisfying state
`[ordinary, rtl]`, the public `addWaypoint` appends an ordinary waypoint
after the `rtl` waypoint, so the `rtl` waypoint is no longer last and the
invariant is violated. -/
theorem addWaypoint_breaks_rtl_invariant :
    RtlLast rtlMidState.waypoints ∧
    ¬ RtlLast (addWaypoint 0 0 WRole.waypoint none none 0 rtlMidState).waypoints := by
  constructor
  · intro w hw
    simp [rtlMidState, baseState] at hw
    rw [hw]
    simp [ordWp]
  · intro hcon
    have hmem : rtlWp ∈
        ((addWaypoint 0 0 WRole.waypoint none none 0 rtlMidState).waypoints).dropLast := by
      show rtlWp ∈ (rtlMidState.waypoints ++ [_]).dropLast
      rw [List.dropLast_concat]
      simp [rtlMidState, baseState]
    exact hcon rtlWp hmem rfl

theorem hoverFold_zero : ∀ (ws : List Waypoint) (r : ℝ),
    (∀ w ∈ ws, w.hoverTime = 0) →
    ws.foldl (fun acc wp => acc + jsOr wp.hoverTime 0) r = r := by
  intro ws
  induction ws with
  | nil => intro r _; rfl
  | cons a t ih =>
      intro r h
      rw [List.foldl_cons, h a (List.mem_cons_self a t), jsOr_zero_left, add_zero]
      exact ih r (fun w hw => h w (List.mem_cons_of_mem a hw))

theorem hoverMinutes_zero {s : MissionState} (h : ∀ w ∈ s.waypoints, w.hoverTime = 0) :
    hoverMinutes s = 0 := by
  unfold hoverMinutes
  rw [hoverFold_zero s.waypoints 0 h]
  norm_num

/-- The status-derived warning entry of `updateWarnings` (src/mission.js
lines 719-734): error for CANNOT COMPLETE, warning for RISKY, success for
FEASIBLE. -/
def statusWarning : MStatus → Severity × WMsg
  | MStatus.cannotComplete => (Severity.error, WMsg.exceedsBatteryCapacity)
  | MStatus.risky => (Severity.warning, WMsg.lowBatteryMargin)
  | _ => (Severity.success, WMsg.missionFeasible)

/-- C7 amended: when a drone with a truthy `maxFlightTime` is selected, at
least 2 waypoints exist and every hover time is 0, the warning list opens
with exactly the status-derived message matching the summary status
(error ↔ CannotComplete, warning ↔ Risky, success ↔ Feasible), because
then the two battery computations coincide. -/
theorem warnings_status_agree_amended (s : MissionState) (d : Drone)
    (hd : s.selectedDrone = some d) (hw : 2 ≤ s.waypoints.length)
    (hhover : ∀ w ∈ s.waypoints, w.hoverTime = 0)
    (hmft : optVal d.maxFlightTime ≠ 0) :
    (missionWarnings s).head? = some (statusWarning (missionStatus s)) := by
  have hlen0 : ¬ s.waypoints.length = 0 := by omega
  have hbw : warnBatteryRequired s d * (1 + s.safetyReserve / 100) =
      batteryWithReserve s d := by
    unfold batteryWithReserve batteryRequired warnBatteryRequired totalFlightMinutes
    rw [if_pos hmft, if_pos hmft, hoverMinutes_zero hhover, add_zero]
  rw [missionStatus_eval s d hd (by omega)]
  unfold missionWarnings
  rw [hd]
  dsimp only
  rw [if_neg hlen0, hbw]
  split_ifs <;> simp [statusWarning]

/-- Two hover-free waypoints at the same position with the test drone. -/
noncomputable def twoWpState : MissionState :=
  { baseState with waypoints := [ordWp, { ordWp with id := 1 }], nextId := 2 }

/-- C7 amended, witnessed at `twoWpState`. -/
theorem warnings_status_agree_witness :
    (missionWarnings twoWpState).head? = some (statusWarning (missionStatus twoWpState)) :=
  warnings_status_agree_amended twoWpState testDrone rfl
    (by norm_num [twoWpState, baseState])
    (by
      intro w hw
      simp [twoWpState, baseState] at hw
      rcases hw with rfl | rfl <;> simp [ordWp])
    (by norm_num [testDrone, optVal])

/-- Two waypoints at the same position hovering 600 s each: the summary
battery figure (with hover) is 200 %, the warnings battery figure (travel
only) is 0 %. -/
noncomputable def hoverHeavyState : MissionState :=
  { baseState with
    waypoints := [{ ordWp with hoverTime := 600 }, { ordWp with id := 1, hoverTime := 600 }],
    homePoint := some (0, 0), nextId := 2 }

theorem bw_hoverHeavy : batteryWithReserve hoverHeavyState testDrone = 200 := by
  norm_num [batteryWithReserve, batteryRequired, totalFlightMinutes, travelMinutes,
    hoverMinutes, adjustedSpeed, windFactor, effectiveSpeed, getTotalDistance,
    totalPathDistance, hoverHeavyState, baseState, ordWp, testDrone, optVal, jsOr,
    calculateDistance_self]

/-- C7 counterexample: on `hoverHeavyState` the summary status is CANNOT
COMPLETE but the status-derived warning is the success message "mission is
feasible" — the warning recomputes the battery figure without hover time,
so its severity does not agree with the status. -/
theorem warnings_status_disagree :
    missionStatus hoverHeavyState = MStatus.cannotComplete ∧
    (missionWarnings hoverHeavyState).head? =
      some (Severity.success, WMsg.missionFeasible) := by
  constructor
  · rw [missionStatus_eval hoverHeavyState testDrone rfl
      (by norm_num [hoverHeavyState, baseState]), bw_hoverHeavy]
    norm_num
  · norm_num [missionWarnings, hoverHeavyState, baseState, warnBatteryRequired,
      travelMinutes, adjustedSpeed, windFactor, effectiveSpeed, getTotalDistance,
      totalPathDistance, ordWp, testDrone, optVal, jsOr, calculateDistance_self]

/-- The round-trip-relevant fields of a waypoint: latitude, longitude,
altitude, speed, hover time and role (ids are regenerated on import). -/
def wpCore (w : Waypoint) : ℝ × ℝ × ℝ × ℝ × ℝ × WRole :=
  (w.lat, w.lng, w.altitude, w.speed, w.hoverTime, w.type)

theorem snd_mem_of_mem_enum {α : Type _} {l : List α} {p : ℕ × α} (h : p ∈ l.enum) :
    p.2 ∈ l :=
  List.getElem?_mem (List.mem_enum_iff_getElem?.1 h)

theorem selectDrone_waypoints (dm : String → Option Drone) (droneId : String)
    (s : MissionState) : (selectDrone dm droneId s).waypoints = s.waypoints := by
  unfold selectDrone
  split
  · rfl
  · cases dm droneId with
    | none => rfl
    | some d =>
        dsimp only
        split <;> rfl

theorem importFold_fields (dws : List DocWaypoint) : ∀ st : MissionState,
    (dws.foldl importWaypointStep st).defaultAltitude = st.defaultAltitude ∧
    (dws.foldl importWaypointStep st).defaultSpeed = st.defaultSpeed ∧
    (dws.foldl importWaypointStep st).safetyReserve = st.safetyReserve ∧
    (dws.foldl importWaypointStep st).windSpeed = st.windSpeed := by
  induction dws with
  | nil => intro st; exact ⟨rfl, rfl, rfl, rfl⟩
  | cons wp t ih =>
      intro st
      rw [List.foldl_cons]
      exact ih (importWaypointStep st wp)

theorem importFold_core (dws : List DocWaypoint) : ∀ st : MissionState,
    (dws.foldl importWaypointStep st).waypoints.map wpCore =
      st.waypoints.map wpCore ++ dws.map (fun wp =>
        (wp.latitude, wp.longitude,
         jsOr wp.altitude st.defaultAltitude,
         jsOr (jsOr (jsOr wp.speed st.defaultSpeed)
           (optVal (st.selectedDrone.map (fun d => d.cruiseSpeed)))) 15,
         jsOr wp.hoverTime 0, wp.type)) := by
  induction dws with
  | nil => intro st; simp
  | cons wp t ih =>
      intro st
      rw [List.foldl_cons, ih (importWaypointStep st wp)]
      simp [importWaypointStep, addWaypoint, wpCore, optVal]

/-- C3 amended: exporting and reimporting reproduces the waypoint sequence
(same order, latitude, longitude, altitude, speed, hover time, type) and
the four parameters, provided every waypoint altitude and speed is nonzero
and `defaultAltitude` and `safetyReserve` are nonzero — the import path
reads each field with a JS `||` fallback, so the value 0 in any of those
positions is replaced by a default instead of being round-tripped. -/
theorem export_import_roundtrip (dm : String → Option Drone) (s : MissionState)
    (d : Drone) (hd : s.selectedDrone = some d) (hne : s.waypoints ≠ [])
    (halt : ∀ w ∈ s.waypoints, w.altitude ≠ 0)
    (hsp : ∀ w ∈ s.waypoints, w.speed ≠ 0)
    (hda : s.defaultAltitude ≠ 0) (hsr : s.safetyReserve ≠ 0) :
    ∃ doc, exportMission s = some doc ∧
      (importMission dm (Except.ok doc) s).2 = none ∧
      ((importMission dm (Except.ok doc) s).1).waypoints.map wpCore =
        s.waypoints.map wpCore ∧
      ((importMission dm (Except.ok doc) s).1).defaultAltitude = s.defaultAltitude ∧
      ((importMission dm (Except.ok doc) s).1).defaultSpeed = s.defaultSpeed ∧
      ((importMission dm (Except.ok doc) s).1).safetyReserve = s.safetyReserve ∧
      ((importMission dm (Except.ok doc) s).1).windSpeed = s.windSpeed := by
  have hclear : (clearMission s).waypoints = [] := by
    unfold clearMission
    rw [if_neg (by simpa [List.isEmpty_iff] using hne)]
  have hs2w : (if d.id ≠ "" then selectDrone dm d.id (clearMission s)
      else clearMission s).waypoints = [] := by
    split
    · rw [selectDrone_waypoints]
      exact hclear
    · exact hclear
  refine ⟨{ drone := { id := d.id, name := d.name, dtype := d.dtype }
            parameters :=
              { defaultAltitude := s.defaultAltitude
                defaultSpeed := s.defaultSpeed
                safetyReserve := s.safetyReserve
                windSpeed := s.windSpeed }
            waypoints := s.waypoints.enum.map (fun p =>
              { index := p.1
                latitude := p.2.lat
                longitude := p.2.lng
                altitude := p.2.altitude
                speed := p.2.speed
                hoverTime := p.2.hoverTime
                type := p.2.type }) }, ?_, ?_, ?_, ?_, ?_, ?_, ?_⟩
  · unfold exportMission
    rw [hd]
    dsimp only
    rw [if_neg (by simpa [List.length_eq_zero] using hne)]
  · rfl
  · unfold importMission
    dsimp only
    generalize List.find? _ _ = found
    have hmain : ∀ st : MissionState, st.waypoints = [] →
        st.defaultAltitude = jsOr s.defaultAltitude 50 →
        ((s.waypoints.enum.map (fun p =>
            ({ index := p.1, latitude := p.2.lat, longitude := p.2.lng,
               altitude := p.2.altitude, speed := p.2.speed,
               hoverTime := p.2.hoverTime, type := p.2.type } : DocWaypoint))).foldl
          importWaypointStep st).waypoints.map wpCore = s.waypoints.map wpCore := by
      intro st hstw hstda
      rw [importFold_core, hstw, List.map_nil, List.nil_append, List.map_map]
      have hpt : s.waypoints.enum.map ((fun wp : DocWaypoint =>
            (wp.latitude, wp.longitude,
             jsOr wp.altitude st.defaultAltitude,
             jsOr (jsOr (jsOr wp.speed st.defaultSpeed)
               (optVal (st.selectedDrone.map (fun d => d.cruiseSpeed)))) 15,
             jsOr wp.hoverTime 0, wp.type)) ∘ (fun p =>
            ({ index := p.1, latitude := p.2.lat, longitude := p.2.lng,
               altitude := p.2.altitude, speed := p.2.speed,
               hoverTime := p.2.hoverTime, type := p.2.type } : DocWaypoint))) =
          s.waypoints.enum.map (fun p => wpCore p.2) := by
        apply List.map_congr_left
        intro p hp
        have hmem := snd_mem_of_mem_enum hp
        have h1 : p.2.altitude ≠ 0 := halt p.2 hmem
        have h2 : p.2.speed ≠ 0 := hsp p.2 hmem
        simp only [Function.comp]
        rw [jsOr_of_ne_zero h1, jsOr_of_ne_zero h2, jsOr_of_ne_zero h2,
          jsOr_of_ne_zero h2, jsOr_zero_right]
        rfl
      rw [hpt]
      rw [show (fun p : ℕ × Waypoint => wpCore p.2) = wpCore ∘ Prod.snd from rfl,
        ← List.map_map, List.enum_map_snd]
    cases found <;>
      exact hmain _ hs2w rfl
  all_goals
    unfold importMission
  all_goals
    dsimp only
  all_goals
    generalize List.find? _ _ = found
  · cases found <;>
      · rcases importFold_fields _ _ with ⟨hf1, _, _, _⟩
        rw [hf1]
        exact jsOr_of_ne_zero hda 50
  · cases found <;>
      · rcases importFold_fields _ _ with ⟨_, hf2, _, _⟩
        rw [hf2]
        exact jsOr_zero_right _
  · cases found <;>
      · rcases importFold_fields _ _ with ⟨_, _, hf3, _⟩
        rw [hf3]
        exact jsOr_of_ne_zero hsr 20
  · cases found <;>
      · rcases importFold_fields _ _ with ⟨_, _, _, hf4⟩
        rw [hf4]
        exact jsOr_zero_right _

/-- A drone-manager lookup fixture that always finds the test drone. -/
noncomputable def dmBase : String → Option Drone := fun _ => some testDrone

/-- A state with one all-nonzero waypoint and a nonzero safety reserve. -/
noncomputable def roundtripState : MissionState :=
  { baseState with waypoints := [ordWp], safetyReserve := 20, nextId := 1 }

/-- C3 amended, witnessed at `roundtripState`. -/
theorem export_import_roundtrip_witness :
    ∃ doc, exportMission roundtripState = some doc ∧
      (importMission dmBase (Except.ok doc) roundtripState).2 = none ∧
      ((importMission dmBase (Except.ok doc) roundtripState).1).waypoints.map wpCore =
        roundtripState.waypoints.map wpCore ∧
      ((importMission dmBase (Except.ok doc) roundtripState).1).defaultAltitude =
        roundtripState.defaultAltitude ∧
      ((importMission dmBase (Except.ok doc) roundtripState).1).defaultSpeed =
        roundtripState.defaultSpeed ∧
      ((importMission dmBase (Except.ok doc) roundtripState).1).safetyReserve =
        roundtripState.safetyReserve ∧
      ((importMission dmBase (Except.ok doc) roundtripState).1).windSpeed =
        roundtripState.windSpeed :=
  export_import_roundtrip dmBase roundtripState testDrone rfl
    (by simp [roundtripState, baseState])
    (by
      intro w hw
      simp [roundtripState, baseState] at hw
      rw [hw]
      norm_num [ordWp])
    (by
      intro w hw
      simp [roundtripState, baseState] at hw
      rw [hw]
      norm_num [ordWp])
    (by norm_num [roundtripState, baseState])
    (by norm_num [roundtripState, baseState])

/-- A state holding one waypoint whose altitude is 0. -/
noncomputable def zeroAltWpState : MissionState :=
  { baseState with waypoints := [{ ordWp with altitude := 0 }], nextId := 1 }

/-- C3 counterexample: a waypoint with altitude 0 does not round-trip —
after export and reimport its stored altitude is the default 50, because
`addWaypoint` reads the imported altitude as `altitude || defaultAltitude`
and 0 is falsy. -/
theorem roundtrip_zero_altitude_counterexample :
    zeroAltWpState.waypoints.map (fun w => w.altitude) = [0] ∧
    ∃ doc, exportMission zeroAltWpState = some doc ∧
      ((importMission dmBase (Except.ok doc) zeroAltWpState).1).waypoints.map
        (fun w => w.altitude) = [50] := by
  constructor
  · simp [zeroAltWpState, baseState, ordWp]
  · refine ⟨_, rfl, ?_⟩
    have hid : (("d1" : String) = "") = False := eq_false (by decide)
    have hrole : (WRole.waypoint = WRole.home) = False := eq_false (by decide)
    norm_num [importMission, clearMission, selectDrone, dmBase, importWaypointStep,
      addWaypoint, exportMission, zeroAltWpState, baseState, ordWp, testDrone,
      optVal, jsOr, hid, hrole]

theorem findIdx_eq_length_iff {α : Type _} (p : α → Bool) (l : List α) :
    l.findIdx p = l.length ↔ ∀ x ∈ l, ¬ p x := by
  constructor
  · intro h x hx hp
    have := List.findIdx_lt_length_of_exists ⟨x, hx, hp⟩
    omega
  · intro h
    by_contra hne
    have hlt : l.findIdx p < l.length :=
      lt_of_le_of_ne (List.findIdx_le_length p) hne
    exact h _ (List.getElem_mem _) (List.findIdx_getElem (w := hlt))

theorem enumFrom_filter_map_snd {α : Type _} (q : α → Bool) :
    ∀ (l : List α) (k : ℕ),
      ((List.enumFrom k l).filter (fun p => q p.2)).map (fun p => p.2) = l.filter q := by
  intro l
  induction l with
  | nil => intro k; rfl
  | cons a t ih =>
      intro k
      show (((k, a) :: List.enumFrom (k + 1) t).filter (fun p => q p.2)).map
        (fun p => p.2) = (a :: t).filter q
      rw [List.filter_cons, List.filter_cons]
      cases hq : q a with
      | true => simp [hq, ih (k + 1)]
      | false => simp [hq, ih (k + 1)]

theorem optimizable_eq_filter (s : MissionState) :
    optimizable s = s.waypoints.filter (fun w => w.type == WRole.waypoint) := by
  unfold optimizable
  have hcongr : s.waypoints.enum.filter
      (fun p => p.2.type == WRole.waypoint && !((fixedPoints s).contains p.1)) =
      s.waypoints.enum.filter (fun p => p.2.type == WRole.waypoint) := by
    apply List.filter_congr
    intro p hp
    have hget := List.mem_enum_iff_getElem?.1 hp
    cases hpt : (p.2.type == WRole.waypoint) with
    | false => rw [Bool.false_and]
    | true =>
        rw [Bool.true_and]
        have hptype : p.2.type = WRole.waypoint := by simpa using hpt
        have hplen : p.1 < s.waypoints.length := (List.getElem?_eq_some.1 hget).1
        have hpe : s.waypoints[p.1] = p.2 := by
          rw [List.getElem?_eq_getElem hplen] at hget
          exact Option.some_injective _ hget
        have hnotmem : p.1 ∉ fixedPoints s := by
          intro hmem
          rcases List.mem_append.1 hmem with hh | hr
          · have hhlt : homeIndex s < s.waypoints.length := by
              by_contra hno
              rw [if_neg hno] at hh
              simp at hh
            rw [if_pos hhlt] at hh
            have hh2 : p.1 = homeIndex s := by simpa using hh
            have hhome2 : s.waypoints.findIdx (fun w => w.type == WRole.home) <
                s.waypoints.length := hhlt
            have hfi := List.findIdx_getElem (w := hhome2)
            simp only [beq_iff_eq] at hfi
            rw [hh2] at hget
            rw [List.getElem?_eq_getElem hhlt] at hget
            have hp2 : s.waypoints[homeIndex s] = p.2 := Option.some_injective _ hget
            have hcontra : p.2.type = WRole.home := by
              rw [← hp2]
              exact hfi
            rw [hptype] at hcontra
            cases hcontra
          · have hrlt : rtlIndex s < s.waypoints.length := by
              by_contra hno
              rw [if_neg hno] at hr
              simp at hr
            rw [if_pos hrlt] at hr
            have hr2 : p.1 = rtlIndex s := by simpa using hr
            have hrtl2 : s.waypoints.findIdx (fun w => w.type == WRole.rtl) <
                s.waypoints.length := hrlt
            have hfi := List.findIdx_getElem (w := hrtl2)
            simp only [beq_iff_eq] at hfi
            rw [hr2] at hget
            rw [List.getElem?_eq_getElem hrlt] at hget
            have hp2 : s.waypoints[rtlIndex s] = p.2 := Option.some_injective _ hget
            have hcontra : p.2.type = WRole.rtl := by
              rw [← hp2]
              exact hfi
            rw [hptype] at hcontra
            cases hcontra
        have hfalse : (fixedPoints s).contains p.1 = false := by
          cases hc : (fixedPoints s).contains p.1 with
          | false => rfl
          | true => exact absurd (List.elem_iff.1 hc) hnotmem
        rw [hfalse]
        rfl
  rw [hcongr]
  exact enumFrom_filter_map_snd (fun w => w.type == WRole.waypoint) s.waypoints 0

theorem waypoint_partition (ws : List Waypoint) :
    List.Perm ws
      (ws.filter (fun w => w.type == WRole.home) ++
        (ws.filter (fun w => w.type == WRole.waypoint) ++
          ws.filter (fun w => w.type == WRole.rtl))) := by
  induction ws with
  | nil => simp
  | cons a t ih =>
      rcases htype : a.type with _ | _ | _
      · show List.Perm (a :: t) _
        rw [List.filter_cons, List.filter_cons, List.filter_cons]
        simp only [htype]
        rw [if_neg (by decide), if_pos (by decide), if_neg (by decide),
          List.cons_append]
        exact (ih.cons a).trans List.perm_middle.symm
      · show List.Perm (a :: t) _
        rw [List.filter_cons, List.filter_cons, List.filter_cons]
        simp only [htype]
        rw [if_pos (by decide), if_neg (by decide), if_neg (by decide),
          List.cons_append]
        exact ih.cons a
      · show List.Perm (a :: t) _
        rw [List.filter_cons, List.filter_cons, List.filter_cons]
        simp only [htype]
        rw [if_neg (by decide), if_neg (by decide), if_pos (by decide)]
        refine (ih.cons a).trans ?_
        exact (List.perm_middle.symm).trans
          (List.Perm.append_left _ List.perm_middle.symm)

theorem filter_len_one_eq {p : Waypoint → Bool} {ws : List Waypoint}
    (hlen : (ws.filter p).length = 1) {x : Waypoint} (hx : x ∈ ws) (hpx : p x) :
    ws.filter p = [x] := by
  rcases List.length_eq_one.1 hlen with ⟨y, hy⟩
  have hxf : x ∈ ws.filter p := List.mem_filter.2 ⟨hx, hpx⟩
  rw [hy] at hxf
  rw [hy, show y = x from (List.mem_singleton.1 hxf).symm]

theorem filter_le_one_eq {p : Waypoint → Bool} {ws : List Waypoint}
    (hlen : (ws.filter p).length ≤ 1) {x : Waypoint} (hx : x ∈ ws) (hpx : p x) :
    ws.filter p = [x] := by
  have hxf : x ∈ ws.filter p := List.mem_filter.2 ⟨hx, hpx⟩
  have hpos : 0 < (ws.filter p).length := List.length_pos.2 (by
    intro h0
    rw [h0] at hxf
    simp at hxf)
  exact filter_len_one_eq (by omega) hx hpx

/-- C1 amended: when exactly one `home` waypoint is present, at most one
`rtl` waypoint exists and at least 2 ordinary waypoints exist (the
operating case of the optimizer), `optimizePath` returns a permutation of
the input sequence whose head is the home waypoint, whose tail before the
`rtl` suffix is a permutation of exactly the ordinary waypoints, and whose
`rtl` waypoint (if present) comes last.  Without a home waypoint the
postcondition fails (see the counterexample): the first waypoint is both
the fixed start and a pool member, so it is emitted twice. -/
theorem optimizePath_perm_home_first (s : MissionState)
    (hhome : (s.waypoints.filter (fun w => w.type == WRole.home)).length = 1)
    (hrtl : (s.waypoints.filter (fun w => w.type == WRole.rtl)).length ≤ 1)
    (hord : 2 ≤ (s.waypoints.filter (fun w => w.type == WRole.waypoint)).length) :
    List.Perm (optimizePath s).waypoints s.waypoints ∧
    ∃ h mid, (optimizePath s).waypoints =
        h :: (mid ++ s.waypoints.filter (fun w => w.type == WRole.rtl)) ∧
      h.type = WRole.home ∧
      List.Perm mid (s.waypoints.filter (fun w => w.type == WRole.waypoint)) := by
  have hpart := waypoint_partition s.waypoints
  have hlen3 : ¬ s.waypoints.length < 3 := by
    have hleq := hpart.length_eq
    rw [List.length_append, List.length_append] at hleq
    omega
  have hopt : optimizable s = s.waypoints.filter (fun w => w.type == WRole.waypoint) :=
    optimizable_eq_filter s
  have hoptlen : ¬ (optimizable s).length < 2 := by
    rw [hopt]
    omega
  have hex : ∃ x ∈ s.waypoints, (fun w => w.type == WRole.home) x := by
    rcases List.length_eq_one.1 hhome with ⟨y, hy⟩
    have hyf : y ∈ s.waypoints.filter (fun w => w.type == WRole.home) := by
      rw [hy]
      exact List.mem_singleton_self y
    rcases List.mem_filter.1 hyf with ⟨hymem, hyp⟩
    exact ⟨y, hymem, hyp⟩
  have hfound : homeIndex s < s.waypoints.length :=
    List.findIdx_lt_length_of_exists hex
  have hstart_eq : startPoint s = s.waypoints[homeIndex s] := by
    unfold startPoint
    rw [if_pos hfound]
    exact List.getD_eq_getElem _ _ hfound
  have hfound2 : s.waypoints.findIdx (fun w => w.type == WRole.home) <
      s.waypoints.length := hfound
  have hstart_home : (s.waypoints[homeIndex s]).type = WRole.home := by
    have := List.findIdx_getElem (w := hfound2)
    simpa using this
  have hfh : s.waypoints.filter (fun w => w.type == WRole.home) =
      [s.waypoints[homeIndex s]] :=
    filter_len_one_eq hhome (List.getElem_mem hfound) (by simp [hstart_home])
  have hrtl_tail : (if rtlIndex s < s.waypoints.length then
      [s.waypoints.getD (rtlIndex s) default] else []) =
      s.waypoints.filter (fun w => w.type == WRole.rtl) := by
    split
    · next hr =>
        have hr2 : s.waypoints.findIdx (fun w => w.type == WRole.rtl) <
            s.waypoints.length := hr
        rw [List.getD_eq_getElem s.waypoints default hr]
        symm
        apply filter_le_one_eq hrtl (List.getElem_mem hr)
        have := List.findIdx_getElem (w := hr2)
        simpa using this
    · next hr =>
        have hr2 : ¬ s.waypoints.findIdx (fun w => w.type == WRole.rtl) <
            s.waypoints.length := hr
        have hle : s.waypoints.findIdx (fun w => w.type == WRole.rtl) ≤
            s.waypoints.length := List.findIdx_le_length _
        have heq : s.waypoints.findIdx (fun w => w.type == WRole.rtl) =
            s.waypoints.length := by omega
        have hnone := (findIdx_eq_length_iff (fun w => w.type == WRole.rtl)
          s.waypoints).1 heq
        symm
        exact List.filter_eq_nil_iff.2 hnone
  have hwps : (optimizePath s).waypoints =
      startPoint s :: (nnRoute (startPoint s) (optimizable s) ++
        s.waypoints.filter (fun w => w.type == WRole.rtl)) := by
    unfold optimizePath
    rw [if_neg hlen3, if_neg hoptlen]
    dsimp only
    rw [hrtl_tail]
  have hnn : List.Perm (nnRoute (startPoint s) (optimizable s))
      (s.waypoints.filter (fun w => w.type == WRole.waypoint)) :=
    (nnRoute_perm _ _).trans (by rw [hopt])
  constructor
  · rw [hwps]
    refine List.Perm.trans ?_ hpart.symm
    rw [hfh, ← hstart_eq, List.singleton_append]
    exact (hnn.append_right _).cons _
  · exact ⟨startPoint s, nnRoute (startPoint s) (optimizable s), hwps,
      by rw [hstart_eq]; exact hstart_home, hnn⟩

/-- A concrete `home` waypoint fixture. -/
noncomputable def homeWp : Waypoint :=
  { id := 10, lat := 1, lng := 1, altitude := 50, speed := 15, hoverTime := 0,
    type := WRole.home }

/-- A second and third ordinary waypoint fixture. -/
noncomputable def ordWpB : Waypoint :=
  { ordWp with id := 2 }

noncomputable def ordWpC : Waypoint :=
  { ordWp with id := 3 }

/-- A home waypoint followed by two ordinary waypoints. -/
noncomputable def optState : MissionState :=
  { baseState with
    waypoints := [homeWp, ordWp, ordWpB]
    homePoint := some (1, 1)
    nextId := 11 }

/-- C1 amended, witnessed at `optState`. -/
theorem optimizePath_perm_home_first_witness :
    List.Perm (optimizePath optState).waypoints optState.waypoints ∧
    ∃ h mid, (optimizePath optState).waypoints =
        h :: (mid ++ optState.waypoints.filter (fun w => w.type == WRole.rtl)) ∧
      h.type = WRole.home ∧
      List.Perm mid (optState.waypoints.filter (fun w => w.type == WRole.waypoint)) :=
  optimizePath_perm_home_first optState
    (by simp [optState, baseState, homeWp, ordWp, ordWpB])
    (by simp [optState, baseState, homeWp, ordWp, ordWpB])
    (by simp [optState, baseState, homeWp, ordWp, ordWpB])

/-- Three ordinary waypoints and no home waypoint. -/
noncomputable def noHomeState : MissionState :=
  { baseState with waypoints := [ordWp, ordWpB, ordWpC], nextId := 4 }

/-- C1 counterexample: without a home waypoint, `optimizePath` output is
not a permutation of the input — the fixed start `waypoints[0]` is also a
member of the optimizable pool, so it appears twice and the output has 4
elements for a 3-element input. -/
theorem optimizePath_no_home_not_perm :
    ¬ List.Perm (optimizePath noHomeState).waypoints noHomeState.waypoints := by
  intro hperm
  have hopt : optimizable noHomeState =
      noHomeState.waypoints.filter (fun w => w.type == WRole.waypoint) :=
    optimizable_eq_filter _
  have hoptlen : (optimizable noHomeState).length = 3 := by
    rw [hopt]
    simp [noHomeState, baseState, ordWp, ordWpB, ordWpC]
  have hrtlidx : rtlIndex noHomeState = noHomeState.waypoints.length := by
    apply (findIdx_eq_length_iff _ _).2
    intro x hx
    simp [noHomeState, baseState] at hx
    rcases hx with rfl | rfl | rfl <;> simp [ordWp, ordWpB, ordWpC]
  have hwps : (optimizePath noHomeState).waypoints =
      startPoint noHomeState ::
        (nnRoute (startPoint noHomeState) (optimizable noHomeState) ++ []) := by
    unfold optimizePath
    rw [if_neg (by norm_num [noHomeState, baseState])]
    rw [if_neg (by rw [hoptlen]; norm_num)]
    dsimp only
    rw [if_neg (by rw [hrtlidx]; exact lt_irrefl _)]
  have hlen := hperm.length_eq
  rw [hwps, List.append_nil, List.length_cons, (nnRoute_perm _ _).length_eq,
    hoptlen] at hlen
  have : noHomeState.waypoints.length = 3 := by
    simp [noHomeState, baseState]
  omega
